import Mathlib

/-!
Verification development for the article-extraction pipeline of the `leelo`
read-it-later service.  The definitions in this file are a shallow embedding of
`src/server/services/extractor.ts` and `src/server/services/queue.ts`:
JavaScript strings are modelled as Lean `String`/`List Char`, machine integers
as `Nat` with explicit `% 2^32` where overflow matters, the persistent article
store as a list of records, and fallible code as `Option`/`Except`.
Platform capabilities used by the service (WHATWG `Date` parsing, network
fetches, the `sharp` encoder, relative-URL serialisation) are passed in as an
explicit environment, mirroring how the TypeScript code receives them from the
runtime.
-/

set_option maxRecDepth 100000

/-! ## JavaScript string primitives -/

/-- The characters matched by the JavaScript regex class `\s` that occur in
the ASCII range (the service only manipulates ASCII metadata). -/
def isSpaceJS (c : Char) : Bool :=
  c = ' ' || c = '\t' || c = '\n' || c = '\r' || c = '\x0b' || c = '\x0c'

/-- Drop leading JS whitespace. -/
def dropLeadingWS : List Char → List Char
  | [] => []
  | c :: rest => if isSpaceJS c then dropLeadingWS rest else c :: rest

/-- Models `String.prototype.trim` on a character list. -/
def jsTrimL (l : List Char) : List Char :=
  (dropLeadingWS ((dropLeadingWS l).reverse)).reverse

/-- Models `String.prototype.trim`. -/
def jsTrimS (s : String) : String := ⟨jsTrimL s.data⟩

/-- ASCII lowercasing of a character list, modelling
`String.prototype.toLowerCase` on the ASCII hostnames and tags this service
handles. -/
def toLowerL (l : List Char) : List Char := l.map Char.toLower

/-- Models `String.prototype.toLowerCase`. -/
def strToLower (s : String) : String := ⟨toLowerL s.data⟩

/-- Does `l` start with `p`? -/
def listStartsWith : List Char → List Char → Bool
  | _, [] => true
  | [], _ :: _ => false
  | a :: l, b :: p => a = b && listStartsWith l p

/-- Does `l` start with `p`, comparing ASCII case-insensitively? -/
def listStartsWithCI : List Char → List Char → Bool
  | _, [] => true
  | [], _ :: _ => false
  | a :: l, b :: p => a.toLower = b.toLower && listStartsWithCI l p

/-- Does `l` end with `p`?  Models `String.prototype.endsWith`. -/
def listEndsWith (l p : List Char) : Bool := listStartsWith l.reverse p.reverse

/-- Models `String.prototype.endsWith`. -/
def strEndsWith (s p : String) : Bool := listEndsWith s.data p.data

/-- Models `String.prototype.startsWith`. -/
def strStartsWith (s p : String) : Bool := listStartsWith s.data p.data

/-- Index of the first occurrence of `p` in `l`, if any
(`String.prototype.indexOf`). -/
def listFindIdx : List Char → List Char → Option Nat
  | l, p =>
    if listStartsWith l p then some 0
    else match l with
      | [] => none
      | _ :: rest => (listFindIdx rest p).map (· + 1)

/-- Does `p` occur in `l` as a contiguous run (`String.prototype.includes`)? -/
def listContainsSub (l p : List Char) : Bool := (listFindIdx l p).isSome

/-- Does the string `p` occur in `s`? -/
def strContainsSub (s p : String) : Bool := listContainsSub s.data p.data

/-- Models `String.prototype.replace` with a plain-string pattern: replace the first
occurrence only. -/
def listReplaceFirst (l p r : List Char) : List Char :=
  match listFindIdx l p with
  | some i => l.take i ++ r ++ l.drop (i + p.length)
  | none => l

/-- Models `String.prototype.replace` with a plain-string pattern. -/
def jsReplaceFirst (s p r : String) : String := ⟨listReplaceFirst s.data p.data r.data⟩

/-- One left-to-right pass of `String.prototype.replace` with a `gi` regex
whose pattern is a literal: every (case-insensitive) occurrence of `p` is
replaced by `r`, scanning resumes after the inserted replacement.  The first
argument is fuel dominating the number of scanning steps. -/
def replaceAllCIF (r p : List Char) : Nat → List Char → List Char
  | 0, l => l
  | _ + 1, [] => []
  | fuel + 1, c :: rest =>
    if listStartsWithCI (c :: rest) p && p ≠ [] then
      r ++ replaceAllCIF r p fuel ((c :: rest).drop p.length)
    else
      c :: replaceAllCIF r p fuel rest

/-- Global case-insensitive literal replacement. -/
def replaceAllCI (l p r : List Char) : List Char := replaceAllCIF r p (l.length + 1) l

/-! ## MD5 (as used by node `crypto.createHash('md5')` on UTF-8 input)

The image pipeline names cached files by the MD5 of the remote URL, so the
hash itself is part of the embedded behaviour.  Words are `Nat` reduced
`% 2^32`. -/

/-- Models `2^32`. -/
def M32 : Nat := 4294967296

/-- Truncate to 32 bits. -/
def m32 (x : Nat) : Nat := x % M32

/-- Thirty-two-bit left rotation (argument assumed `< 2^32`). -/
def rotl32 (x s : Nat) : Nat := ((x <<< s) % M32) ||| (x >>> (32 - s))

/-- The 64 MD5 sine-derived constants of RFC 1321. -/
def mdK : List Nat :=
  [3614090360, 3905402710, 606105819, 3250441966, 4118548399, 1200080426, 2821735955, 4249261313,
   1770035416, 2336552879, 4294925233, 2304563134, 1804603682, 4254626195, 2792965006, 1236535329,
   4129170786, 3225465664, 643717713, 3921069994, 3593408605, 38016083, 3634488961, 3889429448,
   568446438, 3275163606, 4107603335, 1163531501, 2850285829, 4243563512, 1735328473, 2368359562,
   4294588738, 2272392833, 1839030562, 4259657740, 2763975236, 1272893353, 4139469664, 3200236656,
   681279174, 3936430074, 3572445317, 76029189, 3654602809, 3873151461, 530742520, 3299628645,
   4096336452, 1126891415, 2878612391, 4237533241, 1700485571, 2399980690, 4293915773, 2240044497,
   1873313359, 4264355552, 2734768916, 1309151649, 4149444226, 3174756917, 718787259, 3951481745]

/-- The MD5 per-round left-rotation amounts. -/
def mdS : List Nat :=
  [7, 12, 17, 22, 7, 12, 17, 22, 7, 12, 17, 22, 7, 12, 17, 22,
   5, 9, 14, 20, 5, 9, 14, 20, 5, 9, 14, 20, 5, 9, 14, 20,
   4, 11, 16, 23, 4, 11, 16, 23, 4, 11, 16, 23, 4, 11, 16, 23,
   6, 10, 15, 21, 6, 10, 15, 21, 6, 10, 15, 21, 6, 10, 15, 21]

/-- The MD5 chaining state. -/
structure MD5State where
  a : Nat
  b : Nat
  c : Nat
  d : Nat
deriving Repr, DecidableEq

/-- The nonlinear function of MD5 round `r` (0..3) applied to `b`, `c`, `d`. -/
def mdF (r b c d : Nat) : Nat :=
  match r with
  | 0 => (b &&& c) ||| ((b ^^^ 4294967295) &&& d)
  | 1 => (d &&& b) ||| ((d ^^^ 4294967295) &&& c)
  | 2 => b ^^^ c ^^^ d
  | _ => c ^^^ (b ||| (d ^^^ 4294967295))

/-- One of the 64 MD5 steps; `M` is the 16-word message block. -/
def md5Step (M : List Nat) (st : MD5State) (i : Nat) : MD5State :=
  let r := i / 16
  let g := match r with
    | 0 => i % 16
    | 1 => (5 * i + 1) % 16
    | 2 => (3 * i + 5) % 16
    | _ => (7 * i) % 16
  let tmp := m32 (st.a + mdF r st.b st.c st.d + mdK.getD i 0 + M.getD g 0)
  ⟨st.d, m32 (st.b + rotl32 tmp (mdS.getD i 0)), st.b, st.c⟩

/-- Little-endian 32-bit words of a 64-byte block. -/
def leWords : List Nat → List Nat
  | b0 :: b1 :: b2 :: b3 :: rest => (b0 + 256 * (b1 + 256 * (b2 + 256 * b3))) :: leWords rest
  | _ => []

/-- Process one 64-byte block. -/
def md5BlockStep (st : MD5State) (block : List Nat) : MD5State :=
  let M := leWords block
  let e := (List.range 64).foldl (md5Step M) st
  ⟨m32 (st.a + e.a), m32 (st.b + e.b), m32 (st.c + e.c), m32 (st.d + e.d)⟩

/-- The `n` little-endian bytes of `x`. -/
def leBytes (n x : Nat) : List Nat := (List.range n).map (fun i => x / 256 ^ i % 256)

/-- RFC 1321 padding: `0x80`, zeros to 56 mod 64, then the 64-bit
little-endian bit length. -/
def md5Pad (msg : List Nat) : List Nat :=
  msg ++ 128 :: List.replicate ((119 - msg.length % 64) % 64) 0
      ++ leBytes 8 ((8 * msg.length) % 2 ^ 64)

/-- Split a (padded) message into 64-byte blocks; fuel-driven recursion. -/
def chunks64F : Nat → List Nat → List (List Nat)
  | 0, _ => []
  | _ + 1, [] => []
  | fuel + 1, l => l.take 64 :: chunks64F fuel (l.drop 64)

/-- The 16-byte MD5 digest of a byte sequence. -/
def md5Bytes (msg : List Nat) : List Nat :=
  let pad := md5Pad msg
  let fin := (chunks64F pad.length pad).foldl md5BlockStep
    ⟨1732584193, 4023233417, 2562383102, 271733878⟩
  leBytes 4 fin.a ++ leBytes 4 fin.b ++ leBytes 4 fin.c ++ leBytes 4 fin.d

/-- Lowercase hex digit. -/
def hexDigit (n : Nat) : Char := if n < 10 then Char.ofNat (48 + n) else Char.ofNat (87 + n)

/-- Lowercase hex rendering of a byte list (`digest('hex')`). -/
def bytesToHex (bs : List Nat) : String :=
  ⟨bs.foldr (fun b acc => hexDigit (b / 16) :: hexDigit (b % 16) :: acc) []⟩

/-- UTF-8 encoding of one scalar value. -/
def utf8Char (c : Char) : List Nat :=
  let n := c.toNat
  if n < 128 then [n]
  else if n < 2048 then [192 ||| (n >>> 6), 128 ||| (n &&& 63)]
  else if n < 65536 then [224 ||| (n >>> 12), 128 ||| ((n >>> 6) &&& 63), 128 ||| (n &&& 63)]
  else [240 ||| (n >>> 18), 128 ||| ((n >>> 12) &&& 63), 128 ||| ((n >>> 6) &&& 63), 128 ||| (n &&& 63)]

/-- UTF-8 bytes of a string, as fed to `hash.update` for a JS string. -/
def utf8Bytes (s : String) : List Nat := s.data.foldr (fun c acc => utf8Char c ++ acc) []

/-- Models `createHash('md5').update(s).digest('hex')`. -/
def md5HexOfString (s : String) : String := bytesToHex (md5Bytes (utf8Bytes s))

/-! ## URL parsing

A model of the WHATWG `new URL(url)` constructor restricted to the
hierarchical `scheme://authority/...` URLs this service exercises: the scheme
is an ASCII-letter-initial run followed by a literal `://`, the authority ends
at the first `/`, `?` or `#`, userinfo up to the last `@` is stripped, a
trailing `:port` (digits only) is split off, and the hostname is lowercased.
`none` models the constructor throwing (no scheme, empty host, bad port).
IDN, IPv6 literals and percent-encoded hosts are outside the modelled
fragment, as are scheme-relative or slash-less special-scheme forms. -/

/-- Is `c` an ASCII letter? -/
def isAsciiAlpha (c : Char) : Bool :=
  ('a' ≤ c && c ≤ 'z') || ('A' ≤ c && c ≤ 'Z')

/-- Is `c` an ASCII digit? -/
def isAsciiDigit (c : Char) : Bool := '0' ≤ c && c ≤ '9'

/-- Characters allowed in a URL scheme after the first letter. -/
def isSchemeChar (c : Char) : Bool :=
  isAsciiAlpha c || isAsciiDigit c || c = '+' || c = '-' || c = '.'

/-- The components of a parsed URL that the service reads. -/
structure URLParts where
  protocol : String
  hostname : String
  host : String
deriving Repr, DecidableEq

/-- Split `scheme` from the rest at a literal `"://"`, validating the scheme
shape. -/
def splitScheme (l : List Char) : Option (List Char × List Char) :=
  match l with
  | c :: rest =>
    if isAsciiAlpha c then
      let run := rest.takeWhile isSchemeChar
      let after := rest.drop run.length
      if listStartsWith after [':', '/', '/'] then
        some (c :: run, after.drop 3)
      else none
    else none
  | [] => none

/-- Strip userinfo: keep everything after the last `'@'`. -/
def dropUserinfo (l : List Char) : List Char :=
  match listFindIdx l.reverse ['@'] with
  | some i => (l.reverse.take i).reverse
  | none => l

/-- Split `host[:port]`; `none` models an invalid (non-digit) port. -/
def splitPort (l : List Char) : Option (List Char) :=
  match listFindIdx l [':'] with
  | some i =>
    let port := l.drop (i + 1)
    if port.all isAsciiDigit then some (l.take i) else none
  | none => some l

/-- Models `new URL(url)`, restricted as described above. -/
def parseURL (url : String) : Option URLParts :=
  match splitScheme url.data with
  | none => none
  | some (scheme, rest) =>
    let auth := rest.takeWhile (fun c => c ≠ '/' && c ≠ '?' && c ≠ '#')
    match splitPort (dropUserinfo auth) with
    | none => none
    | some hostCs =>
      if hostCs = [] then none
      else
        let hostname := String.mk (toLowerL hostCs)
        some { protocol := String.mk (toLowerL scheme) ++ ":",
               hostname := hostname,
               host := String.mk (toLowerL (dropUserinfo auth)) }

/-- Models `new URL(url).hostname`, when the URL parses. -/
def urlHostname (url : String) : Option String := (parseURL url).map (·.hostname)

/-! ## Content extractor: domain checks (`extractor.ts`) -/

/-- Models `ContentExtractor.isExactDomain`: hostname equality or dot-separated
subdomain suffix; any parse failure yields `false`. -/
def isExactDomain (url domain : String) : Bool :=
  match parseURL url with
  | none => false
  | some p =>
    let hostname := strToLower p.hostname
    hostname == domain || strEndsWith hostname ("." ++ domain)

/-- Models `ContentExtractor.extractDomain`: hostname with the first occurrence of
`"www."` removed, or the raw input when parsing fails. -/
def extractDomain (url : String) : String :=
  match parseURL url with
  | none => url
  | some p => jsReplaceFirst p.hostname "www." ""

/-! ## `ContentExtractor.sanitizeHtml` -/

/-- One pass of the regex `/<[^>]*>/g`: from each `'<'` with a later `'>'`,
drop through that `'>'`; a `'<'` with no closing `'>'` is kept.  Fuel-driven
(the fuel dominates the count of consumed characters). -/
def stripTagsF : Nat → List Char → List Char
  | 0, l => l
  | _ + 1, [] => []
  | fuel + 1, '<' :: rest =>
    let inner := rest.takeWhile (· ≠ '>')
    match rest.drop inner.length with
    | '>' :: rest2 => stripTagsF fuel rest2
    | _ => '<' :: stripTagsF fuel rest
  | fuel + 1, c :: rest => c :: stripTagsF fuel rest

/-- Remove all HTML tags. -/
def stripTags (l : List Char) : List Char := stripTagsF (l.length + 1) l

/-- The entity table of `sanitizeHtml`, in source order. -/
def htmlEntities : List (String × String) :=
  [("&amp;", "&"), ("&lt;", "<"), ("&gt;", ">"), ("&quot;", "\""),
   ("&#39;", "'"), ("&apos;", "'"), ("&nbsp;", " "), ("&copy;", "©"),
   ("&reg;", "®"), ("&trade;", "™"), ("&hellip;", "..."), ("&mdash;", "—"),
   ("&ndash;", "–"), ("&lsquo;", "‘"), ("&rsquo;", "’"),
   ("&ldquo;", "“"), ("&rdquo;", "”")]

/-- Apply the table replacements in order (each a global case-insensitive
literal replace). -/
def decodeEntities (l : List Char) : List Char :=
  htmlEntities.foldl (fun acc pr => replaceAllCI acc pr.1.data pr.2.data) l

/-- Is `c` in `[a-zA-Z0-9]`? -/
def isAlnumJS (c : Char) : Bool := isAsciiAlpha c || isAsciiDigit c

/-- The catch-all pass `/&#?[a-zA-Z0-9]+;/g`: remove every remaining
entity-like run.  Fuel-driven scan. -/
def removeEntitiesF : Nat → List Char → List Char
  | 0, l => l
  | _ + 1, [] => []
  | fuel + 1, '&' :: rest =>
    let afterHash := match rest with
      | '#' :: t => t
      | _ => rest
    let run := afterHash.takeWhile isAlnumJS
    if run ≠ [] then
      match afterHash.drop run.length with
      | ';' :: rest2 => removeEntitiesF fuel rest2
      | _ => '&' :: removeEntitiesF fuel rest
    else '&' :: removeEntitiesF fuel rest
  | fuel + 1, c :: rest => c :: removeEntitiesF fuel rest

/-- Remove residual HTML entities. -/
def removeEntities (l : List Char) : List Char := removeEntitiesF (l.length + 1) l

/-- The regex `/\s+/g → ' '`: collapse each whitespace run to one space. -/
def collapseWSAux : Bool → List Char → List Char
  | _, [] => []
  | prevWs, c :: rest =>
    if isSpaceJS c then
      if prevWs then collapseWSAux true rest else ' ' :: collapseWSAux true rest
    else c :: collapseWSAux false rest

/-- Collapse whitespace runs. -/
def collapseWS (l : List Char) : List Char := collapseWSAux false l

/-- Models `ContentExtractor.sanitizeHtml`: strip tags, decode the entity table,
drop leftover entities, normalise whitespace, trim.  The falsy-input guard of
the source returns `''` for the empty string. -/
def sanitizeHtml (html : String) : String :=
  if html = "" then ""
  else ⟨jsTrimL (collapseWS (removeEntities (decodeEntities (stripTags html.data))))⟩

/-! ## `ContentExtractor.countWords` and reading time -/

/-- Number of maximal non-whitespace runs; the flag records whether the scan
is inside a run. -/
def wordRuns : Bool → List Char → Nat
  | _, [] => 0
  | inWord, c :: rest =>
    if isSpaceJS c then wordRuns false rest
    else (if inWord then 0 else 1) + wordRuns true rest

/-- Models `ContentExtractor.countWords`: `text.trim().split(/\s+/).length`.  For the
empty trimmed string, `split` yields `[""]`, so the count is 1. -/
def countWords (text : String) : Nat :=
  let t := jsTrimL text.data
  if t = [] then 1 else wordRuns false t

/-! ## DOM model

`extractFromHtml` consults the parsed document exclusively through
`document.querySelector(sel)` for a fixed set of selector strings, reading an
element's `content`, `href`, `src` or `datetime` attribute or its
`textContent`.  A document is therefore embedded as the association of each
selector string with its first matching element, if any. -/

/-- The projection of a DOM element that the extractor reads.  A `none`
attribute models `getAttribute` returning `null`. -/
structure Elem where
  contentAttr : Option String := none
  hrefAttr : Option String := none
  srcAttr : Option String := none
  datetimeAttr : Option String := none
  textContent : String := ""
deriving Repr, DecidableEq

/-- A parsed document: first match for each selector string. -/
structure Document where
  elems : List (String × Elem)
deriving Repr, DecidableEq

/-- Models `document.querySelector`. -/
def querySelector (d : Document) (sel : String) : Option Elem :=
  (d.elems.find? (fun pr => pr.1 == sel)).map (·.2)

/-- JS `a || b` for a nullable string `a` and string `b` (`''` is falsy). -/
def jsOrStr (a : Option String) (b : String) : String :=
  match a with
  | some s => if s = "" then b else s
  | none => b

/-- JS `a || b` for two nullable strings. -/
def jsOrOpt (a b : Option String) : Option String :=
  match a with
  | some s => if s = "" then b else some s
  | none => b

/-! ## Metadata extractors (`extractor.ts` private helpers) -/

/-- Ordered-selector loop shared by `extractTitle` and `extractAuthor`:
the first element whose `content` attribute or `textContent` trims to a
non-empty string wins. -/
def firstAttrOrText (d : Document) : List String → Option String
  | [] => none
  | sel :: rest =>
    match querySelector d sel with
    | none => firstAttrOrText d rest
    | some e =>
      let content := jsOrStr e.contentAttr e.textContent
      if jsTrimS content = "" then firstAttrOrText d rest
      else some (jsTrimS content)

/-- The selector list of `extractTitle`. -/
def titleSelectors : List String :=
  ["h1", "[property=\"og:title\"]", "[name=\"twitter:title\"]", "title"]

/-- Models `ContentExtractor.extractTitle`. -/
def extractTitle (d : Document) : String :=
  (firstAttrOrText d titleSelectors).getD "Untitled Article"

/-- The selector list of `extractAuthor`. -/
def authorSelectors : List String :=
  ["[property=\"article:author\"]", "[name=\"author\"]",
   "[property=\"og:article:author\"]", ".author", ".byline", "[rel=\"author\"]"]

/-- Models `ContentExtractor.extractAuthor`. -/
def extractAuthor (d : Document) : Option String := firstAttrOrText d authorSelectors

/-- The selector list of `extractDescription`. -/
def descriptionSelectors : List String :=
  ["[property=\"og:description\"]", "[name=\"description\"]",
   "[name=\"twitter:description\"]", "[property=\"description\"]"]

/-- Models `ContentExtractor.extractDescription`: like the other loops but reading
only the `content` attribute. -/
def extractDescription (d : Document) : Option String :=
  descriptionSelectors.foldr
    (fun sel acc =>
      match querySelector d sel with
      | none => acc
      | some e =>
        match e.contentAttr with
        | some s => if jsTrimS s = "" then acc else some (jsTrimS s)
        | none => acc)
    none

/-- Models `ContentExtractor.extractExcerpt`: sanitized content, truncated to 200
characters with an ellipsis; an empty result is `undefined`. -/
def extractExcerpt (content : String) : Option String :=
  let plainText := sanitizeHtml content
  if 200 < plainText.data.length then some (⟨plainText.data.take 200⟩ ++ "...")
  else if plainText = "" then none else some plainText

/-- The platform capabilities `extractFromHtml` consumes: `Date` parsing
(`some t` is a valid timestamp, `none` models `NaN`), image fetching
(`none` models a network error or non-2xx response), the `sharp`
encode-and-write step, and relative-URL resolution
(`new URL(rel, base).href`; `none` models the constructor throwing). -/
structure ExtractEnv where
  parseDate : String → Option Int
  fetchImage : String → Option (List Nat)
  sharpOk : List Nat → Bool
  resolveRel : String → String → Option String

/-- The selector list of `extractPublishedDate`. -/
def dateSelectors : List String :=
  ["[property=\"article:published_time\"]", "[property=\"og:article:published_time\"]",
   "[name=\"pubdate\"]", "time[datetime]", ".published", ".date"]

/-- Models `ContentExtractor.extractPublishedDate`: first selector whose
`content`/`datetime` attribute or text parses as a valid date. -/
def extractPublishedDate (env : ExtractEnv) (d : Document) : Option Int :=
  dateSelectors.foldr
    (fun sel acc =>
      match querySelector d sel with
      | none => acc
      | some e =>
        let dateStr := jsOrStr (jsOrOpt e.contentAttr e.datetimeAttr) e.textContent
        if dateStr = "" then acc
        else match env.parseDate (jsTrimS dateStr) with
          | some t => some t
          | none => acc)
    none

/-- Models `ContentExtractor.resolveUrl`: absolute URLs pass through; otherwise
resolve against the base when one is given and resolution succeeds. -/
def resolveUrl (env : ExtractEnv) (url : String) (baseUrl : Option String) : String :=
  if strStartsWith url "http://" || strStartsWith url "https://" then url
  else match baseUrl with
    | some b =>
      match env.resolveRel url b with
      | some r => r
      | none => url
    | none => url

/-- The selector list of `extractFavicon`. -/
def faviconSelectors : List String :=
  ["link[rel=\"icon\"]", "link[rel=\"shortcut icon\"]", "link[rel=\"apple-touch-icon\"]"]

/-- Models `ContentExtractor.extractFavicon`: first `link` `href`, else
`protocol//host/favicon.ico` derived from the base URL. -/
def extractFavicon (env : ExtractEnv) (d : Document) (baseUrl : Option String) : Option String :=
  faviconSelectors.foldr
    (fun sel acc =>
      match querySelector d sel with
      | none => acc
      | some e =>
        match e.hrefAttr with
        | some href => if href = "" then acc else some (resolveUrl env href baseUrl)
        | none => acc)
    (match baseUrl with
     | some b =>
       match parseURL b with
       | some p => some (p.protocol ++ "//" ++ p.host ++ "/favicon.ico")
       | none => none
     | none => none)

/-! ## Fallback content builder -/

/-- The YouTube note of `createFallbackContent`. -/
def youtubeNote : String :=
  "<p class=\"content-note\"><strong>This is a YouTube video.</strong> Visit the link to watch the video.</p>"

/-- The social-media note of `createFallbackContent`. -/
def socialNote : String :=
  "<p class=\"content-note\"><strong>This is a social media post.</strong> Visit the link to see the full post and comments.</p>"

/-- The generic note of `createFallbackContent`. -/
def genericNote : String :=
  "<p class=\"content-note\"><strong>Content could not be extracted automatically.</strong> This might be a dynamic page, video, or other media. Visit the link to view the full content.</p>"

/-- JS template interpolation of a possibly-`undefined` string. -/
def jsInterp (o : Option String) : String :=
  match o with
  | some s => s
  | none => "undefined"

/-- Models `ContentExtractor.createFallbackContent`. -/
def createFallbackContent (title : String) (description : Option String)
    (baseUrl : Option String) : String :=
  let domain := match baseUrl with
    | some b => if b = "" then "this page" else extractDomain b
    | none => "this page"
  let descPart := match description with
    | some dsc => if dsc = "" then "" else "<p class=\"description\">" ++ dsc ++ "</p>"
    | none => ""
  let note := match baseUrl with
    | some b =>
      if b ≠ "" && (isExactDomain b "youtube.com" || isExactDomain b "youtu.be") then
        youtubeNote
      else if b ≠ "" && (isExactDomain b "twitter.com" || isExactDomain b "x.com") then
        socialNote
      else genericNote
    | none => genericNote
  "<div class=\"fallback-content\">" ++ "<h1>" ++ title ++ "</h1>" ++ descPart ++ note
    ++ "<p class=\"source\">Source: <a href=\"" ++ jsInterp baseUrl
    ++ "\" target=\"_blank\" rel=\"noopener noreferrer\">" ++ domain ++ "</a></p>"
    ++ "</div>"

/-! ## Image pipeline -/

/-- Models `ContentExtractor.downloadAndOptimizeImage`: fetch the bytes, name the
file `md5(imageUrl).webp`, encode with `sharp`; any failure is swallowed into
`none`.  The local filename depends on the URL only, never on the bytes. -/
def downloadAndOptimizeImage (env : ExtractEnv) (imageUrl : String) : Option String :=
  match env.fetchImage imageUrl with
  | none => none
  | some buf =>
    if env.sharpOk buf then some (md5HexOfString imageUrl ++ ".webp") else none

/-- The filename `downloadAndOptimizeImage` derives for a remote URL. -/
def imageFilename (imageUrl : String) : String := md5HexOfString imageUrl ++ ".webp"

/-- The selector list of `extractAndOptimizeImage`. -/
def imageSelectors : List String :=
  ["[property=\"og:image\"]", "[name=\"twitter:image\"]", "article img",
   ".featured-image img", "img"]

/-- Models `ContentExtractor.extractAndOptimizeImage`: the first selector with a
truthy `content`/`src` wins; its pipeline result is returned as-is (the
pipeline swallows its own failures into `undefined`). -/
def extractAndOptimizeImage (env : ExtractEnv) (d : Document)
    (baseUrl : Option String) : Option String :=
  imageSelectors.foldr
    (fun sel acc =>
      match querySelector d sel with
      | none => acc
      | some e =>
        let src := jsOrOpt e.contentAttr e.srcAttr
        match src with
        | some s =>
          if s = "" then acc
          else downloadAndOptimizeImage env (resolveUrl env s baseUrl)
        | none => acc)
    none

/-! ## The `<img>` regex of `processImagesInContent`

The source scans content with `/<img[^>]+src=["']([^"']+)["'][^>]*>/gi`.
The match attempt at a position is embedded directly: a case-insensitive
`<img`, a non-empty gap of non-`>` characters tried greedily (longest first,
as the backtracking engine does), a case-insensitive `src=`, a quote, a
non-empty unquoted run (the captured URL), a quote, then the remainder of the
tag up to `>`. -/

/-- Match `["']([^"']+)["'][^>]*>` at the head of `l`; returns the consumed
length and the captured value. -/
def imgTailMatch (l : List Char) : Option (Nat × List Char) :=
  match l with
  | q :: rest =>
    if q = '"' || q = '\'' then
      let v := rest.takeWhile (fun c => c ≠ '"' && c ≠ '\'')
      if v = [] then none
      else
        match rest.drop v.length with
        | q2 :: rest2 =>
          if q2 = '"' || q2 = '\'' then
            let b := rest2.takeWhile (· ≠ '>')
            match rest2.drop b.length with
            | '>' :: _ => some (v.length + b.length + 3, v)
            | _ => none
          else none
        | [] => none
    else none
  | [] => none

/-- Try gap lengths `k, k-1, …, 1` for the `[^>]+` before `src=`; `after` is
the text following `<img`. -/
def imgTryGaps (after : List Char) : Nat → Option (Nat × List Char)
  | 0 => none
  | k + 1 =>
    if listStartsWithCI (after.drop (k + 1)) ['s', 'r', 'c', '='] then
      match imgTailMatch (after.drop (k + 1 + 4)) with
      | some (tailLen, v) => some (4 + (k + 1) + 4 + tailLen, v)
      | none => imgTryGaps after k
    else imgTryGaps after k

/-- Attempt an `<img …>` match at the head of `l`; returns the total match
length and the captured `src`. -/
def imgMatchAt (l : List Char) : Option (Nat × List Char) :=
  if listStartsWithCI l ['<', 'i', 'm', 'g'] then
    let after := l.drop 4
    imgTryGaps after ((after.takeWhile (· ≠ '>')).length)
  else none

/-- All (leftmost, non-overlapping) matches as `(full tag, src)` pairs, the
way `matchAll` enumerates them.  Fuel dominates the scan steps. -/
def imgScanF : Nat → List Char → List (List Char × List Char)
  | 0, _ => []
  | _ + 1, [] => []
  | fuel + 1, c :: rest =>
    match imgMatchAt (c :: rest) with
    | some (len, v) => ((c :: rest).take len, v) :: imgScanF fuel ((c :: rest).drop len)
    | none => imgScanF fuel rest

/-- All `<img>` matches of a content string. -/
def imgMatches (content : String) : List (String × String) :=
  (imgScanF (content.data.length + 1) content.data).map (fun pr => (⟨pr.1⟩, ⟨pr.2⟩))

/-- One iteration of the rewrite loop of `processImagesInContent`: on pipeline
success, substitute the local path inside the tag and splice the new tag over
the first occurrence of the old one. -/
def processOneImg (env : ExtractEnv) (baseUrl : Option String)
    (pc : String) (m : String × String) : String :=
  let absoluteUrl := resolveUrl env m.2 baseUrl
  match downloadAndOptimizeImage env absoluteUrl with
  | some optimizedPath =>
    let newImgTag := jsReplaceFirst m.1 m.2 ("/assets/" ++ optimizedPath)
    jsReplaceFirst pc m.1 newImgTag
  | none => pc

/-- Models `ContentExtractor.processImagesInContent`. -/
def processImagesInContent (env : ExtractEnv) (content : String)
    (baseUrl : Option String) : String :=
  (imgMatches content).foldl (processOneImg env baseUrl) content

/-! ## `ContentExtractor.extractFromHtml` -/

/-- The `{title, byline, excerpt, content, textContent} | null` value produced
by the pluggable readability step; every field may be `null`. -/
structure ReadabilityResult where
  title : Option String := none
  byline : Option String := none
  excerpt : Option String := none
  content : Option String := none
  textContent : Option String := none
deriving Repr, DecidableEq

/-- The result record assembled by `extractFromHtml`. -/
structure ExtractedArticle where
  title : String
  author : Option String
  content : String
  excerpt : Option String
  wordCount : Nat
  readingTime : Nat
  publishedAt : Option Int
  favicon : Option String
  image : Option String
  originalHtml : String
deriving Repr, DecidableEq

/-- Models `ContentExtractor.extractFromHtml`, given the parsed document and the
readability outcome (`none` models `reader.parse()` returning null).  The
`Except` mirrors the method's throw-on-internal-error contract; no branch of
the embedded body throws, and in particular a null readability result flows
into the fallback builder rather than an error. -/
def extractFromHtml (env : ExtractEnv) (html : String) (d : Document)
    (baseUrl : Option String) (article : Option ReadabilityResult) :
    Except String ExtractedArticle :=
  let tace : String × Option String × Option String × String :=
    match article with
    | some art =>
      (jsOrStr art.title (extractTitle d),
       jsOrOpt art.byline (extractAuthor d),
       jsOrOpt art.excerpt
         (match art.content with
          | some c => if c = "" then none else extractExcerpt c
          | none => none),
       jsOrStr art.content "")
    | none =>
      let t := extractTitle d
      let desc := extractDescription d
      (t, extractAuthor d, desc, createFallbackContent t desc baseUrl)
  let title := tace.1
  let author := tace.2.1
  let excerpt := tace.2.2.1
  let content := tace.2.2.2
  let publishedAt := extractPublishedDate env d
  let favicon := extractFavicon env d baseUrl
  let image := extractAndOptimizeImage env d baseUrl
  let wordCount := countWords (jsOrStr (article.bind (·.textContent)) (sanitizeHtml content))
  let readingTime := (wordCount + 199) / 200
  let processedContent := processImagesInContent env content baseUrl
  .ok { title := title, author := author, content := processedContent,
        excerpt := excerpt, wordCount := wordCount, readingTime := readingTime,
        publishedAt := publishedAt, favicon := favicon, image := image,
        originalHtml := html }

/-- An inert environment: dates never parse, fetches fail, relative
resolution fails. -/
def inertEnv : ExtractEnv :=
  { parseDate := fun _ => none, fetchImage := fun _ => none,
    sharpOk := fun _ => false, resolveRel := fun _ _ => none }

/-! ## Job queue and extraction state tracker (`queue.ts`)

The persistent article store is embedded as a list of records; `prisma.
article.update({where: {id}})` maps the patch over the records with that id,
`findUnique` is `find?`, and `findMany` a `filter`.  Time is abstract
milliseconds; each database write receives the timestamp its `new Date()`
would observe. -/

/-- The `extractionStatus` state machine values. -/
inductive ExtractionStatus
  | pending
  | extracting
  | completed
  | failed
deriving Repr, DecidableEq

/-- The fields of an `Article` row that the extraction pipeline reads or
writes. -/
structure Article where
  id : String
  url : String
  userId : String
  title : String
  content : String
  author : Option String := none
  excerpt : Option String := none
  wordCount : Option Nat := none
  readingTime : Option Nat := none
  publishedAt : Option Int := none
  favicon : Option String := none
  image : Option String := none
  originalHtml : Option String := none
  extractionStatus : ExtractionStatus
  extractionError : Option String := none
  updatedAt : Nat
deriving Repr, DecidableEq

/-- The article store. -/
abbrev DB := List Article

/-- The payload of an `extract-article` job. -/
structure JobData where
  articleId : String
  url : String
  userId : String
deriving Repr, DecidableEq

/-- Models `prisma.article.update({where: {id}, data})`. -/
def updateWhere (aid : String) (patch : Article → Article) (db : DB) : DB :=
  db.map fun a => if a.id = aid then patch a else a

/-- The first `data` write of `processArticleExtraction`: status
`extracting`, error cleared, `updatedAt` bumped. -/
def extractingPatch (now : Nat) (a : Article) : Article :=
  { a with extractionStatus := .extracting, extractionError := none, updatedAt := now }

/-- The success write: all extracted fields, status `completed`, error
cleared. -/
def completedPatch (now : Nat) (e : ExtractedArticle) (a : Article) : Article :=
  { a with title := e.title, author := e.author, content := e.content,
           excerpt := e.excerpt, wordCount := some e.wordCount,
           readingTime := some e.readingTime, publishedAt := e.publishedAt,
           favicon := e.favicon, image := e.image,
           originalHtml := some e.originalHtml,
           extractionStatus := .completed, extractionError := none,
           updatedAt := now }

/-- The "Failed to extract" placeholder content. -/
def failHtml (url errorMessage : String) : String :=
  "<p>Failed to extract content from URL: " ++ url ++ "</p><p>Error: "
    ++ errorMessage ++ "</p>"

/-- The failure write: placeholder title/content, status `failed`,
`extractionError` set. -/
def failedPatch (now : Nat) (url errorMessage : String) (a : Article) : Article :=
  { a with title := "Failed to extract", content := failHtml url errorMessage,
           extractionStatus := .failed, extractionError := some errorMessage,
           updatedAt := now }

/-- Models `processArticleExtraction`: mark `extracting`, run the extractor
(`outcome` is the result of `await extractor.extractFromUrl(url)`, with
`.error` modelling a throw whose `message` is carried), then write the
terminal state.  On failure the error is rethrown to the queue, which the
returned `Except` carries. -/
def processArticleExtraction (db : DB) (job : JobData)
    (outcome : Except String ExtractedArticle) (t1 t2 : Nat) :
    DB × Except String Unit :=
  let db1 := updateWhere job.articleId (extractingPatch t1) db
  match outcome with
  | .ok e => (updateWhere job.articleId (completedPatch t2 e) db1, .ok ())
  | .error msg => (updateWhere job.articleId (failedPatch t2 job.url msg) db1, .error msg)

/-- Models `addJob`: the promise rejects if the queue singleton was never
initialised, and otherwise resolves once the job is accepted into the queue.
Modelled from the spec: the acceptance semantics of the third-party
better-queue `push` callback are not part of the repository sources; per the
spec the promise resolves on acceptance, not on completion. -/
def addJob (queue : Option (List JobData)) (job : JobData) :
    Except String (List JobData) :=
  match queue with
  | none => .error "Queue not initialized"
  | some q => .ok (q ++ [job])

/-- Models `retryExtractionJob`: re-read the article, throw when it is gone, and
re-enqueue a fresh job with its current URL. -/
def retryExtractionJob (db : DB) (queue : Option (List JobData)) (aid : String) :
    Except String (List JobData) :=
  match db.find? (fun a => a.id == aid) with
  | none => .error "Article not found"
  | some article => addJob queue ⟨article.id, article.url, article.userId⟩

/-- The queue configuration passed to `new Queue` in `setupQueue`. -/
structure QueueConfig where
  concurrent : Nat
  maxRetries : Nat
  retryDelay : Nat
deriving Repr, DecidableEq

/-- Models `setupQueue`'s configuration: `{concurrent: 2, maxRetries: 3,
retryDelay: 5000}`. -/
def leeloQueueConfig : QueueConfig := ⟨2, 3, 5000⟩

/-- Modelled from the spec: the retry loop of the third-party better-queue
library is not part of the repository sources.  Per the spec, a job is
attempted up to `maxAttempts` times in total, with `retryDelay` milliseconds
between successive attempts, and is discarded once the attempts are
exhausted.  `handlerOk i` is whether the handler's `i`-th invocation
succeeds; the result is (number of handler invocations, terminal success,
delays inserted between attempts). -/
def runJobAttempts (handlerOk : Nat → Bool) (retryDelay : Nat) :
    Nat → Nat → Nat × Bool × List Nat
  | 0, _ => (0, false, [])
  | remaining + 1, i =>
    if handlerOk i then (1, true, [])
    else if remaining = 0 then (1, false, [])
    else
      let rest := runJobAttempts handlerOk retryDelay remaining (i + 1)
      (rest.1 + 1, rest.2.1, retryDelay :: rest.2.2)

/-- Run one job to termination under a queue configuration. -/
def runJob (cfg : QueueConfig) (handlerOk : Nat → Bool) : Nat × Bool × List Nat :=
  runJobAttempts handlerOk cfg.retryDelay cfg.maxRetries 0

/-! ## Stuck-job reaper (`cleanupStuckExtractions`) -/

/-- The `findMany` condition: `extractionStatus = extracting` and `updatedAt`
strictly older than the ten-minute threshold `now - 600000`. -/
def stuckCond (now : Nat) (a : Article) : Bool :=
  a.extractionStatus == .extracting && a.updatedAt < now - 600000

/-- The reaper's failure write: timeout error, status `failed`; title and
content are not touched. -/
def timeoutPatch (now : Nat) (a : Article) : Article :=
  { a with extractionStatus := .failed,
           extractionError := some "Extraction timeout - job was stuck",
           updatedAt := now }

/-- The reaper's per-article body: mark failed, then reschedule via
`retryExtractionJob`; a reschedule error is caught and logged. -/
def reapOne (now : Nat) (st : DB × List JobData) (aid : String) : DB × List JobData :=
  let db1 := updateWhere aid (timeoutPatch now) st.1
  match retryExtractionJob db1 (some st.2) aid with
  | .ok q1 => (db1, q1)
  | .error _ => (db1, st.2)

/-- Models `cleanupStuckExtractions`: scan for stuck articles, then fail and
reschedule each; returns the new store, the new queue and the `cleaned`
count. -/
def cleanupStuckExtractions (db : DB) (queue : List JobData) (now : Nat) :
    DB × List JobData × Nat :=
  let stuckArticles := db.filter (stuckCond now)
  let st := (stuckArticles.map (·.id)).foldl (reapOne now) (db, queue)
  (st.1, st.2, stuckArticles.length)

/-- The job the reaper's reschedule step enqueues for a given article id
(the fields are read back from the store). -/
def jobFor (db : DB) (aid : String) : JobData :=
  match db.find? (fun a => a.id == aid) with
  | some a => ⟨a.id, a.url, a.userId⟩
  | none => ⟨aid, "", ""⟩

/-! ## Auxiliary valuations and concrete scenarios used by the theorems -/

/-- Little-endian base-256 valuation of a byte list. -/
def bytesToNatLE : List Nat → Nat
  | [] => 0
  | b :: rest => b + 256 * bytesToNatLE rest

/-- The MD5 digest of a string's UTF-8 bytes as a natural number. -/
def md5DigestNat (s : String) : Nat := bytesToNatLE (md5Bytes (utf8Bytes s))

/-- A YouTube watch URL. -/
def ytUrl : String := "https://www.youtube.com/watch?v=aqz-KE-bpKQ"

/-- The parse of a bare `<html><body></body></html>` carrying only an
`og:title` meta tag: no other selector matches. -/
def ytDoc : Document :=
  ⟨[("[property=\"og:title\"]", { contentAttr := some "Big Buck Bunny" })]⟩

/-- The raw HTML of the bare document. -/
def ytHtml : String := "<html><body></body></html>"

/-- A plain-text body of exactly 400 words. -/
def text400 : String := String.intercalate " " (List.replicate 400 "w")

/-- A readability result whose plain text is 400 words. -/
def art400 : ReadabilityResult :=
  { title := some "T", content := some "<p>c</p>", textContent := some text400 }

/-- A readability result whose plain text is one word. -/
def artOneWord : ReadabilityResult :=
  { title := some "T", content := some "<p>c</p>", textContent := some "hello" }

/-- An environment in which image fetching and encoding always succeed. -/
def okEnv : ExtractEnv :=
  { parseDate := fun _ => none, fetchImage := fun _ => some [1],
    sharpOk := fun _ => true, resolveRel := fun _ _ => none }

/-- Unwrap a known-successful extraction result. -/
def extractOk (x : Except String ExtractedArticle) : ExtractedArticle :=
  match x with
  | .ok r => r
  | .error _ => ⟨"", none, "", none, 0, 0, none, none, none, ""⟩

/-- The empty document: no selector matches. -/
def emptyDoc : Document := ⟨[]⟩

/-- The extraction result for the one-word readability output. -/
def resultOneWord : ExtractedArticle :=
  extractOk (extractFromHtml inertEnv "" emptyDoc none (some artOneWord))

/-- An article whose extraction has previously completed. -/
def origArticle : Article :=
  { id := "a1", url := "https://example.com/post", userId := "u1",
    title := "My Article", content := "<p>Original body</p>",
    wordCount := some 2, readingTime := some 1,
    extractionStatus := .completed, extractionError := none, updatedAt := 1000 }

/-- An article stuck in `extracting` since time 0. -/
def stuckArticle : Article :=
  { id := "s1", url := "https://example.com/stuck", userId := "u1",
    title := "Stuck", content := "<p>old</p>",
    extractionStatus := .extracting, updatedAt := 0 }

/-- An article that is `extracting` but recent (not stuck). -/
def freshArticle : Article :=
  { id := "s2", url := "https://example.com/fresh", userId := "u2",
    title := "Fresh", content := "<p>new</p>",
    extractionStatus := .extracting, updatedAt := 650000 }

/-! # Theorems -/

/-! ## Evaluation checks of the embedded operations (MD5 test vectors,
URL parsing, domain matching, sanitiser, word counts, the img-tag regex) -/

example : md5HexOfString "" = "d41d8cd98f00b204e9800998ecf8427e" := by decide
example : md5HexOfString "abc" = "900150983cd24fb0d6963f7d28e17f72" := by decide
example : md5HexOfString "https://a/i.png" = "5ef2a196b56c05f9de9f97557f1268a4" := by decide
example : urlHostname "https://m.youtube.com/x" = some "m.youtube.com" := by decide
example : urlHostname "notaurl" = none := by decide
example : urlHostname "https://user:pw@WWW.Example.com:8080/p?q#f" = some "www.example.com" := by decide
example : isExactDomain "https://m.youtube.com/x" "youtube.com" = true := by decide
example : isExactDomain "https://evilyoutube.com/x" "youtube.com" = false := by decide
example : extractDomain "https://www.youtube.com/watch" = "youtube.com" := by decide
example :
    sanitizeHtml "<p>Caf&eacute; &amp; bar &mdash; &quot;hi&quot;</p>  <b>x</b>" =
      "Caf & bar — \"hi\" x" := by decide
example : countWords "  one two\tthree  " = 3 := by decide
example : countWords "" = 1 := by decide
example : imgMatches "<img src=\"a.png\">" = [("<img src=\"a.png\">", "a.png")] := by decide
example : imgMatches "<IMG data-x=1 SRC='b' class=c>" =
    [("<IMG data-x=1 SRC='b' class=c>", "b")] := by decide
example : imgMatches "<img src=x>" = [] := by decide
example : imgMatches "<img alt=\"y\" src=\"a>b\" x>" =
    [("<img alt=\"y\" src=\"a>b\" x>", "a>b")] := by decide
example : imgMatches "<img notsrc=\"v\" src=\"w\">x<img src=\"v2\">" =
    [("<img notsrc=\"v\" src=\"w\">", "w"), ("<img src=\"v2\">", "v2")] := by decide
example : imgMatches "<imgsrc=\"q\">" = [] := by decide

/-! ## List and string helper lemmas -/

theorem listStartsWith_append (u y : List Char) : listStartsWith (u ++ y) u = true := by
  induction u with
  | nil => simp [listStartsWith]
  | cons a u ih => simp [listStartsWith, ih]

theorem listFindIdx_isSome_cons (c : Char) (l p : List Char)
    (h : (listFindIdx l p).isSome = true) :
    (listFindIdx (c :: l) p).isSome = true := by
  unfold listFindIdx
  by_cases hs : listStartsWith (c :: l) p
  · simp [hs]
  · simpa [hs] using h

theorem listFindIdx_isSome_append_mid (x u y : List Char) :
    (listFindIdx (x ++ u ++ y) u).isSome = true := by
  induction x with
  | nil =>
    unfold listFindIdx
    simp [listStartsWith_append]
  | cons c x ih => exact listFindIdx_isSome_cons c _ u ih

theorem listContainsSub_append_mid (x u y : List Char) :
    listContainsSub (x ++ u ++ y) u = true := by
  unfold listContainsSub
  exact listFindIdx_isSome_append_mid x u y

theorem strContainsSub_failHtml_url (url msg : String) :
    strContainsSub (failHtml url msg) url = true := by
  unfold failHtml strContainsSub
  simp only [String.data_append]
  have h := listContainsSub_append_mid
    "<p>Failed to extract content from URL: ".data url.data
    ("</p><p>Error: ".data ++ msg.data ++ "</p>".data)
  simpa [List.append_assoc] using h

theorem strContainsSub_failHtml_msg (url msg : String) :
    strContainsSub (failHtml url msg) msg = true := by
  unfold failHtml strContainsSub
  simp only [String.data_append]
  have h := listContainsSub_append_mid
    ("<p>Failed to extract content from URL: ".data ++ url.data ++ "</p><p>Error: ".data)
    msg.data "</p>".data
  simpa [List.append_assoc] using h

/-! ## Word-count positivity -/

theorem wordRuns_false_eq_zero {l : List Char} (h : wordRuns false l = 0) :
    ∀ c ∈ l, isSpaceJS c = true := by
  induction l with
  | nil => intro c hc; cases hc
  | cons a l ih =>
    intro c hc
    by_cases ha : isSpaceJS a
    · rcases List.mem_cons.mp hc with rfl | hc
      · exact ha
      · exact ih (by simpa [wordRuns, ha] using h) c hc
    · simp [wordRuns, ha] at h

theorem dropLeadingWS_head (l : List Char) :
    dropLeadingWS l = [] ∨
      ∃ c rest, dropLeadingWS l = c :: rest ∧ isSpaceJS c = false := by
  induction l with
  | nil => exact Or.inl rfl
  | cons a l ih =>
    by_cases ha : isSpaceJS a
    · simpa [dropLeadingWS, ha] using ih
    · exact Or.inr ⟨a, l, by simp [dropLeadingWS, ha], by simpa using ha⟩

theorem countWords_pos (s : String) : 0 < countWords s := by
  unfold countWords
  by_cases h : jsTrimL s.data = []
  · simp [h]
  · simp only [h, if_false]
    rcases Nat.eq_zero_or_pos (wordRuns false (jsTrimL s.data)) with hz | hp
    · exfalso
      have hall := wordRuns_false_eq_zero hz
      unfold jsTrimL at h hall
      rcases dropLeadingWS_head ((dropLeadingWS s.data).reverse) with h0 | ⟨c, rest, heq, hc⟩
      · exact h (by simp [h0])
      · have hmem : c ∈ (dropLeadingWS ((dropLeadingWS s.data).reverse)).reverse := by
          simp [heq]
        have := hall c hmem
        rw [this] at hc
        cases hc
    · exact hp

/-! ## Store-update helper lemmas -/

theorem mem_updateWhere_of_id {aid : String} {p : Article → Article}
    (hp : ∀ x, (p x).id = x.id) {db : DB} {a : Article}
    (ha : a ∈ updateWhere aid p db) (hid : a.id = aid) :
    ∃ b ∈ db, b.id = aid ∧ a = p b := by
  unfold updateWhere at ha
  rcases List.mem_map.mp ha with ⟨b, hb, hba⟩
  by_cases h : b.id = aid
  · exact ⟨b, hb, h, by rw [← hba]; simp [h]⟩
  · exfalso
    rw [if_neg h] at hba
    exact h (hba ▸ hid)

theorem extractingPatch_id (t : Nat) (a : Article) : (extractingPatch t a).id = a.id := rfl

theorem completedPatch_id (t : Nat) (e : ExtractedArticle) (a : Article) :
    (completedPatch t e a).id = a.id := rfl

theorem failedPatch_id (t : Nat) (u m : String) (a : Article) :
    (failedPatch t u m a).id = a.id := rfl

theorem timeoutPatch_id (t : Nat) (a : Article) : (timeoutPatch t a).id = a.id := rfl

/-- Claim C2: `addJob` resolves exactly when the queue has been initialised —
the job is accepted into the queue (appended), no execution is awaited — and
it rejects only with the `Queue not initialized` error when the singleton is
missing. -/
theorem claim_C2 (job : JobData) :
    addJob none job = .error "Queue not initialized" ∧
    ∀ q : List JobData, addJob (some q) job = .ok (q ++ [job]) ∧ job ∈ q ++ [job] := by
  exact ⟨rfl, fun q => ⟨rfl, by simp⟩⟩

/-- Claim C3: under the configuration of `setupQueue` (`maxRetries = 3`,
`retryDelay = 5000`), a handler that always throws is invoked exactly three
times, the job ends discarded (no terminal success), and the two gaps between
the three attempts are the fixed 5000 ms delay. -/
theorem claim_C3 :
    leeloQueueConfig.maxRetries = 3 ∧ leeloQueueConfig.retryDelay = 5000 ∧
    (runJob leeloQueueConfig (fun _ => false)).1 = 3 ∧
    (runJob leeloQueueConfig (fun _ => false)).2.1 = false ∧
    (runJob leeloQueueConfig (fun _ => false)).2.2 = [5000, 5000] := by
  refine ⟨rfl, rfl, ?_, ?_, ?_⟩ <;> rfl

/-- Claim C7: `isExactDomain` accepts only hostname equality or a
dot-separated subdomain suffix: `evilyoutube.com` does not match
`youtube.com`, `m.youtube.com` does, and in general a URL whose hostname is
neither the domain itself nor ends in `"." ++ domain` never matches. -/
theorem claim_C7 :
    isExactDomain "https://evilyoutube.com/x" "youtube.com" = false ∧
    isExactDomain "https://m.youtube.com/x" "youtube.com" = true ∧
    ∀ url domain h, urlHostname url = some h → strToLower h ≠ domain →
      strEndsWith (strToLower h) ("." ++ domain) = false →
      isExactDomain url domain = false := by
  refine ⟨by decide, by decide, ?_⟩
  intro url domain h hparse hne hsuf
  unfold isExactDomain
  unfold urlHostname at hparse
  cases hp : parseURL url with
  | none => rfl
  | some p =>
    rw [hp, Option.map_some'] at hparse
    have hh : p.hostname = h := by injection hparse
    show (strToLower p.hostname == domain
        || strEndsWith (strToLower p.hostname) ("." ++ domain)) = false
    rw [hh]
    simp only [Bool.or_eq_false_iff]
    constructor
    · simpa [beq_iff_eq] using hne
    · exact hsuf

/-- Witness for C7 at a hostname that ends in the domain string without a dot
separator. -/
theorem claim_C7_witness :
    urlHostname "https://myyoutube.com/x" = some "myyoutube.com" ∧
    strToLower "myyoutube.com" ≠ "youtube.com" ∧
    strEndsWith (strToLower "myyoutube.com") ("." ++ "youtube.com") = false ∧
    isExactDomain "https://myyoutube.com/x" "youtube.com" = false :=
  ⟨by decide, by decide, by decide,
   claim_C7.2.2 "https://myyoutube.com/x" "youtube.com" "myyoutube.com"
     (by decide) (by decide) (by decide)⟩

/-- Both writes of a failing `processArticleExtraction` run, characterised:
any record with the job's id in the resulting store is the failure patch of
the extracting patch of a record of the original store. -/
theorem process_error_mem {db : DB} {job : JobData} {msg : String} {t1 t2 : Nat}
    {a : Article} (ha : a ∈ (processArticleExtraction db job (.error msg) t1 t2).1)
    (hid : a.id = job.articleId) :
    ∃ b ∈ db, b.id = job.articleId ∧
      a = failedPatch t2 job.url msg (extractingPatch t1 b) := by
  unfold processArticleExtraction at ha
  rcases mem_updateWhere_of_id (failedPatch_id t2 job.url msg) ha hid with ⟨b1, hb1, hb1id, rfl⟩
  rcases mem_updateWhere_of_id (extractingPatch_id t1) hb1 hb1id with ⟨b, hb, hbid, rfl⟩
  exact ⟨b, hb, hbid, rfl⟩

/-- The success-path analogue of `process_error_mem`. -/
theorem process_ok_mem {db : DB} {job : JobData} {e : ExtractedArticle} {t1 t2 : Nat}
    {a : Article} (ha : a ∈ (processArticleExtraction db job (.ok e) t1 t2).1)
    (hid : a.id = job.articleId) :
    ∃ b ∈ db, b.id = job.articleId ∧
      a = completedPatch t2 e (extractingPatch t1 b) := by
  unfold processArticleExtraction at ha
  rcases mem_updateWhere_of_id (completedPatch_id t2 e) ha hid with ⟨b1, hb1, hb1id, rfl⟩
  rcases mem_updateWhere_of_id (extractingPatch_id t1) hb1 hb1id with ⟨b, hb, hbid, rfl⟩
  exact ⟨b, hb, hbid, rfl⟩

/-- Claim C4 (amendable reading proved as stated): after an extraction job
fails with message `msg`, the article record carries `extractionStatus =
failed`, `extractionError = msg` (non-empty whenever the thrown message is),
and the visible `Failed to extract` placeholder whose content embeds both the
article URL and the message. -/
theorem claim_C4 (db : DB) (job : JobData) (msg : String) (t1 t2 : Nat)
    (hmsg : msg ≠ "") :
    ∀ a ∈ (processArticleExtraction db job (.error msg) t1 t2).1,
      a.id = job.articleId →
      a.extractionStatus = .failed ∧
      a.extractionError = some msg ∧ a.extractionError ≠ some "" ∧
      a.title = "Failed to extract" ∧
      a.content = failHtml job.url msg ∧
      strContainsSub a.content job.url = true ∧
      strContainsSub a.content msg = true := by
  intro a ha hid
  rcases process_error_mem ha hid with ⟨b, _, _, rfl⟩
  refine ⟨rfl, rfl, ?_, rfl, rfl, ?_, ?_⟩
  · simp [failedPatch, hmsg]
  · exact strContainsSub_failHtml_url job.url msg
  · exact strContainsSub_failHtml_msg job.url msg

/-- Witness for C4: a concrete failing run over a one-article store. -/
theorem claim_C4_witness :
    "boom" ≠ "" ∧
    (∀ a ∈ (processArticleExtraction [origArticle]
        ⟨"a1", "https://example.com/post", "u1"⟩ (.error "boom") 2000 2001).1,
      a.id = (⟨"a1", "https://example.com/post", "u1"⟩ : JobData).articleId →
      a.extractionStatus = .failed ∧
      a.extractionError = some "boom" ∧ a.extractionError ≠ some "" ∧
      a.title = "Failed to extract" ∧
      a.content = failHtml "https://example.com/post" "boom" ∧
      strContainsSub a.content "https://example.com/post" = true ∧
      strContainsSub a.content "boom" = true) :=
  ⟨by decide,
   claim_C4 [origArticle] ⟨"a1", "https://example.com/post", "u1"⟩ "boom" 2000 2001
     (by decide)⟩

/-- Claim C10: the failure handler persists the failed state and then
rethrows the extraction error to the queue; since a failed attempt with
attempts remaining is re-run (two or more invocations happen for an
always-failing job under the configured policy), the re-run's first write
moves the same article from `failed` back to `extracting` with no user retry
or reaper involved. -/
theorem claim_C10 (db : DB) (job : JobData) (msg : String) (t1 t2 t3 : Nat) :
    (processArticleExtraction db job (.error msg) t1 t2).2 = .error msg ∧
    2 ≤ (runJob leeloQueueConfig (fun _ => false)).1 ∧
    ∀ a ∈ (processArticleExtraction db job (.error msg) t1 t2).1,
      a.id = job.articleId →
      a.extractionStatus = .failed ∧
      (extractingPatch t3 a).extractionStatus = .extracting ∧
      (extractingPatch t3 a).id = a.id := by
  refine ⟨rfl, by decide, ?_⟩
  intro a ha hid
  rcases process_error_mem ha hid with ⟨b, _, _, rfl⟩
  exact ⟨rfl, rfl, rfl⟩

/-- Witness for C10 at a concrete store and job. -/
theorem claim_C10_witness :
    (processArticleExtraction [origArticle]
        ⟨"a1", "https://example.com/post", "u1"⟩ (.error "down") 5 6).2 = .error "down" ∧
    2 ≤ (runJob leeloQueueConfig (fun _ => false)).1 ∧
    ∀ a ∈ (processArticleExtraction [origArticle]
        ⟨"a1", "https://example.com/post", "u1"⟩ (.error "down") 5 6).1,
      a.id = (⟨"a1", "https://example.com/post", "u1"⟩ : JobData).articleId →
      a.extractionStatus = .failed ∧
      (extractingPatch 7 a).extractionStatus = .extracting ∧
      (extractingPatch 7 a).id = a.id :=
  claim_C10 [origArticle] ⟨"a1", "https://example.com/post", "u1"⟩ "down" 5 6 7

/-- Counterexample to claim C1 as stated: `origArticle` has previously
completed extraction with its own title and body; a retry whose extraction
fails overwrites both with the failure placeholder, so the earlier completed
content is not left intact. -/
theorem claim_C1_counterexample :
    origArticle.extractionStatus = .completed ∧
    origArticle.content = "<p>Original body</p>" ∧
    origArticle.title = "My Article" ∧
    (retryExtractionJob [origArticle] (some []) "a1").toOption =
      some [⟨"a1", "https://example.com/post", "u1"⟩] ∧
    ((processArticleExtraction [origArticle]
        ⟨"a1", "https://example.com/post", "u1"⟩
        (.error "fetch failed") 2000 2001).1.map (·.content)) =
      [failHtml "https://example.com/post" "fetch failed"] ∧
    ((processArticleExtraction [origArticle]
        ⟨"a1", "https://example.com/post", "u1"⟩
        (.error "fetch failed") 2000 2001).1.map (·.title)) =
      ["Failed to extract"] ∧
    failHtml "https://example.com/post" "fetch failed" ≠ "<p>Original body</p>" ∧
    ("Failed to extract" : String) ≠ "My Article" := by
  decide

/-- Claim C1 as amended: only the `extracting → completed` and
`extracting → failed` transitions rewrite the content fields — the
`→ extracting` step preserves `title`/`content` — and therefore a failed
retry, which re-enters `extracting` and then takes `extracting → failed`,
overwrites previously completed content with the failure placeholder rather
than leaving it intact. -/
theorem claim_C1_amended (db : DB) (job : JobData) (t1 t2 : Nat) :
    (∀ a : Article,
       (extractingPatch t1 a).content = a.content ∧
       (extractingPatch t1 a).title = a.title ∧
       (extractingPatch t1 a).extractionStatus = .extracting) ∧
    (∀ e : ExtractedArticle, ∀ a ∈ (processArticleExtraction db job (.ok e) t1 t2).1,
       a.id = job.articleId →
       a.content = e.content ∧ a.title = e.title ∧ a.extractionStatus = .completed) ∧
    (∀ msg : String, ∀ a ∈ (processArticleExtraction db job (.error msg) t1 t2).1,
       a.id = job.articleId →
       a.content = failHtml job.url msg ∧ a.title = "Failed to extract" ∧
       a.extractionStatus = .failed) := by
  refine ⟨fun a => ⟨rfl, rfl, rfl⟩, ?_, ?_⟩
  · intro e a ha hid
    rcases process_ok_mem ha hid with ⟨b, _, _, rfl⟩
    exact ⟨rfl, rfl, rfl⟩
  · intro msg a ha hid
    rcases process_error_mem ha hid with ⟨b, _, _, rfl⟩
    exact ⟨rfl, rfl, rfl⟩

/-- Witness for the amended C1 at a concrete store and job. -/
theorem claim_C1_witness :
    (∀ a : Article,
       (extractingPatch 9 a).content = a.content ∧
       (extractingPatch 9 a).title = a.title ∧
       (extractingPatch 9 a).extractionStatus = .extracting) ∧
    (∀ e : ExtractedArticle, ∀ a ∈ (processArticleExtraction [origArticle]
        ⟨"a1", "https://example.com/post", "u1"⟩ (.ok e) 9 10).1,
       a.id = (⟨"a1", "https://example.com/post", "u1"⟩ : JobData).articleId →
       a.content = e.content ∧ a.title = e.title ∧ a.extractionStatus = .completed) ∧
    (∀ msg : String, ∀ a ∈ (processArticleExtraction [origArticle]
        ⟨"a1", "https://example.com/post", "u1"⟩ (.error msg) 9 10).1,
       a.id = (⟨"a1", "https://example.com/post", "u1"⟩ : JobData).articleId →
       a.content = failHtml "https://example.com/post" msg ∧
       a.title = "Failed to extract" ∧ a.extractionStatus = .failed) :=
  claim_C1_amended [origArticle] ⟨"a1", "https://example.com/post", "u1"⟩ 9 10

/-- Claim C6: a null readability result is never an error — `extractFromHtml`
returns a result for every document and base URL — and on the bare
`og:title`-only document fetched from a YouTube URL the result's title is the
meta-tag title and its content carries the video-specific note. -/
theorem claim_C6 :
    (∀ (env : ExtractEnv) (html : String) (d : Document) (u : Option String),
       ∃ r, extractFromHtml env html d u none = .ok r) ∧
    (extractFromHtml inertEnv ytHtml ytDoc (some ytUrl) none).toOption.map (·.title) =
      some "Big Buck Bunny" ∧
    (extractFromHtml inertEnv ytHtml ytDoc (some ytUrl) none).toOption.map
      (fun r => strContainsSub r.content youtubeNote) = some true := by
  refine ⟨fun env html d u => ⟨_, rfl⟩, by decide, by decide⟩

/-- A reading time of the form `⌈w / 200⌉` is positive whenever `w` is. -/
theorem readingTime_pos (w : Nat) (hw : 0 < w) : 0 < (w + 199) / 200 :=
  Nat.div_pos (by omega) (by norm_num)

/-- Claim C9: every extraction result satisfies
`readingTime = ⌈wordCount / 200⌉` with a positive word count (so the reading
time is never 0); the word count comes from the readability plain text when
that is available and non-empty; 400 plain-text words give reading time 2 and
one word gives 1. -/
theorem claim_C9 :
    (∀ (env : ExtractEnv) (html : String) (d : Document) (u : Option String)
       (art : Option ReadabilityResult) (r : ExtractedArticle),
       extractFromHtml env html d u art = .ok r →
       r.readingTime = (r.wordCount + 199) / 200 ∧ 0 < r.wordCount ∧ 0 < r.readingTime) ∧
    (∀ (env : ExtractEnv) (html : String) (d : Document) (u : Option String)
       (art : ReadabilityResult) (t : String) (r : ExtractedArticle),
       art.textContent = some t → t ≠ "" →
       extractFromHtml env html d u (some art) = .ok r →
       r.wordCount = countWords t) ∧
    (extractFromHtml inertEnv "" emptyDoc none (some art400)).toOption.map (·.wordCount) =
      some 400 ∧
    (extractFromHtml inertEnv "" emptyDoc none (some art400)).toOption.map (·.readingTime) =
      some 2 ∧
    (extractFromHtml inertEnv "" emptyDoc none (some artOneWord)).toOption.map (·.readingTime) =
      some 1 := by
  refine ⟨?_, ?_, by decide, by decide, by decide⟩
  · intro env html d u art r h
    rw [extractFromHtml.eq_def] at h
    injection h with h
    subst h
    exact ⟨rfl, countWords_pos _, readingTime_pos _ (countWords_pos _)⟩
  · intro env html d u art t r htc hne h
    rw [extractFromHtml.eq_def] at h
    injection h with h
    subst h
    show countWords (jsOrStr ((some art).bind (·.textContent)) _) = countWords t
    rw [Option.some_bind, htc]
    simp [jsOrStr, hne]

/-- Witness for C9 at the one-word readability output. -/
theorem claim_C9_witness :
    artOneWord.textContent = some "hello" ∧ "hello" ≠ "" ∧
    extractFromHtml inertEnv "" emptyDoc none (some artOneWord) = .ok resultOneWord ∧
    resultOneWord.wordCount = countWords "hello" ∧
    resultOneWord.readingTime = (resultOneWord.wordCount + 199) / 200 ∧
    0 < resultOneWord.readingTime :=
  ⟨rfl, by decide, rfl,
   claim_C9.2.1 inertEnv "" emptyDoc none artOneWord "hello" resultOneWord rfl
     (by decide) rfl,
   (claim_C9.1 inertEnv "" emptyDoc none (some artOneWord) resultOneWord rfl).1,
   (claim_C9.1 inertEnv "" emptyDoc none (some artOneWord) resultOneWord rfl).2.2⟩

/-! ## MD5 digest range lemmas (for claim C8) -/

theorem bytesToNatLE_lt (bs : List Nat) (hb : ∀ b ∈ bs, b < 256) :
    bytesToNatLE bs < 256 ^ bs.length := by
  induction bs with
  | nil => simp [bytesToNatLE]
  | cons b rest ih =>
    have hb0 : b < 256 := hb b (by simp)
    have hr := ih (fun x hx => hb x (by simp [hx]))
    simp only [bytesToNatLE, List.length_cons, pow_succ]
    omega

theorem bytesToNatLE_inj (bs : List Nat) : ∀ (cs : List Nat),
    bs.length = cs.length → (∀ b ∈ bs, b < 256) → (∀ b ∈ cs, b < 256) →
    bytesToNatLE bs = bytesToNatLE cs → bs = cs := by
  induction bs with
  | nil =>
    intro cs hlen _ _ _
    cases cs with
    | nil => rfl
    | cons c cs => simp at hlen
  | cons b rest ih =>
    intro cs hlen hb hc h
    cases cs with
    | nil => simp at hlen
    | cons c cs =>
      have hb0 : b < 256 := hb b (by simp)
      have hc0 : c < 256 := hc c (by simp)
      simp only [bytesToNatLE] at h
      have hbc : b = c ∧ bytesToNatLE rest = bytesToNatLE cs := by omega
      rw [hbc.1,
        ih cs (by simpa using hlen) (fun x hx => hb x (by simp [hx]))
          (fun x hx => hc x (by simp [hx])) hbc.2]

theorem leBytes_length (n x : Nat) : (leBytes n x).length = n := by simp [leBytes]

theorem leBytes_lt (n x : Nat) : ∀ b ∈ leBytes n x, b < 256 := by
  intro b hb
  simp only [leBytes, List.mem_map, List.mem_range] at hb
  obtain ⟨i, _, rfl⟩ := hb
  exact Nat.mod_lt _ (by norm_num)

theorem md5Bytes_length (msg : List Nat) : (md5Bytes msg).length = 16 := by
  simp [md5Bytes, leBytes_length]

theorem md5Bytes_lt (msg : List Nat) : ∀ b ∈ md5Bytes msg, b < 256 := by
  intro b hb
  simp only [md5Bytes, List.mem_append] at hb
  rcases hb with ((h | h) | h) | h <;> exact leBytes_lt _ _ b h

theorem md5DigestNat_lt (s : String) : md5DigestNat s < 2 ^ 128 := by
  have h := bytesToNatLE_lt (md5Bytes (utf8Bytes s)) (md5Bytes_lt _)
  rw [md5Bytes_length] at h
  calc md5DigestNat s < 256 ^ 16 := h
    _ = 2 ^ 128 := by norm_num

/-- Claim C8 as amended: the local filename is a deterministic function of
the remote URL alone — `md5(url).webp`, independent of the fetched bytes and
of the environment — and two remote URLs receive distinct names whenever
their MD5 digests differ (which, the digest being 128 bits, cannot hold for
every pair of distinct URLs; see the counterexample). -/
theorem claim_C8_amended :
    (∀ (env1 env2 : ExtractEnv) (u f1 f2 : String),
       downloadAndOptimizeImage env1 u = some f1 →
       downloadAndOptimizeImage env2 u = some f2 → f1 = f2) ∧
    (∀ (env : ExtractEnv) (u f : String),
       downloadAndOptimizeImage env u = some f → f = imageFilename u) ∧
    (∀ u v : String, md5HexOfString u ≠ md5HexOfString v →
       imageFilename u ≠ imageFilename v) := by
  have key : ∀ (env : ExtractEnv) (u f : String),
      downloadAndOptimizeImage env u = some f → f = imageFilename u := by
    intro env u f h
    unfold downloadAndOptimizeImage at h
    split at h
    · cases h
    · split at h
      · injection h with h
        exact h.symm
      · cases h
  refine ⟨fun e1 e2 u f1 f2 h1 h2 => (key e1 u f1 h1).trans (key e2 u f2 h2).symm,
    key, ?_⟩
  intro u v hne heq
  apply hne
  unfold imageFilename at heq
  have hdata : (md5HexOfString u).data ++ ".webp".data =
      (md5HexOfString v).data ++ ".webp".data := by
    have h2 := congrArg String.data heq
    simpa [String.data_append] using h2
  exact String.ext (List.append_cancel_right hdata)

/-- Witness for the amended C8: a concrete URL and environment. -/
theorem claim_C8_witness :
    downloadAndOptimizeImage okEnv "https://a/i.png" =
      some (imageFilename "https://a/i.png") ∧
    imageFilename "https://a/i.png" = imageFilename "https://a/i.png" ∧
    md5HexOfString "https://a/i.png" ≠ md5HexOfString "https://b/j.png" ∧
    imageFilename "https://a/i.png" ≠ imageFilename "https://b/j.png" :=
  ⟨by decide,
   claim_C8_amended.1 okEnv okEnv "https://a/i.png"
     (imageFilename "https://a/i.png") (imageFilename "https://a/i.png")
     (by decide) (by decide),
   by decide,
   claim_C8_amended.2.2 "https://a/i.png" "https://b/j.png" (by decide)⟩

/-- Pigeonhole: no function from strings into a 128-bit range is injective. -/
theorem string_fn_collision (g : String → Nat) (hg : ∀ s, g s < 2 ^ 128) :
    ∃ x y : String, x ≠ y ∧ g x = g y := by
  obtain ⟨x, y, hne, heq⟩ :=
    Finite.exists_ne_map_eq_of_infinite
      (fun s : String => (⟨g s, hg s⟩ : Fin (2 ^ 128)))
  exact ⟨x, y, hne, congrArg Fin.val heq⟩

/-- Counterexample to claim C8 as stated: names are 128-bit MD5 digests, so a
function from the infinitely many URL strings into them cannot be injective —
there exist two distinct remote URLs that receive the same local filename. -/
theorem claim_C8_counterexample :
    ¬ (∀ u v : String, u ≠ v → imageFilename u ≠ imageFilename v) := by
  intro hinj
  obtain ⟨x, y, hne, hval⟩ := string_fn_collision md5DigestNat md5DigestNat_lt
  unfold md5DigestNat at hval
  have hlen : (md5Bytes (utf8Bytes x)).length = (md5Bytes (utf8Bytes y)).length := by
    rw [md5Bytes_length, md5Bytes_length]
  have hbytes : md5Bytes (utf8Bytes x) = md5Bytes (utf8Bytes y) :=
    bytesToNatLE_inj (md5Bytes (utf8Bytes x)) (md5Bytes (utf8Bytes y)) hlen
      (md5Bytes_lt (utf8Bytes x)) (md5Bytes_lt (utf8Bytes y)) hval
  have hfn : imageFilename x = imageFilename y := by
    unfold imageFilename md5HexOfString
    rw [hbytes]
  exact hinj x y hne hfn

/-! ## Reaper characterisation (for claim C5) -/

theorem timeoutPatch_idem (t : Nat) (a : Article) :
    timeoutPatch t (timeoutPatch t a) = timeoutPatch t a := rfl

theorem find?_id_of_nodup {db : DB} (hnd : (db.map (·.id)).Nodup) {a : Article}
    (ha : a ∈ db) : db.find? (fun b => b.id == a.id) = some a := by
  induction db with
  | nil => cases ha
  | cons h t ih =>
    rw [List.map_cons] at hnd
    have hnd2 := List.nodup_cons.mp hnd
    rcases List.mem_cons.mp ha with rfl | hat
    · exact List.find?_cons_of_pos t (by simp)
    · have hne : h.id ≠ a.id := by
        intro hcontra
        exact hnd2.1 (hcontra ▸ List.mem_map.mpr ⟨a, hat, rfl⟩)
      rw [List.find?_cons_of_neg t (by simpa using hne)]
      exact ih hnd2.2 hat

/-- One pass of the reaper's fold, characterised: `f` abstracts the patches
already applied (it must preserve `id`, `url` and `userId`), every id in `l`
must be present in the store, and then the fold timeout-patches exactly the
records whose id is listed and enqueues one re-extraction job per listed id,
in order, with the stored URL. -/
theorem reapFold_spec (now : Nat) :
    ∀ (l : List String) (db0 : DB) (f : Article → Article) (q : List JobData),
      (∀ x, (f x).id = x.id) → (∀ x, (f x).url = x.url) →
      (∀ x, (f x).userId = x.userId) →
      (∀ aid ∈ l, ∃ a ∈ db0, a.id = aid) →
      l.foldl (reapOne now) (db0.map f, q) =
        (db0.map (fun a => if a.id ∈ l then timeoutPatch now (f a) else f a),
         q ++ l.map (jobFor db0)) := by
  intro l
  induction l with
  | nil =>
    intro db0 f q _ _ _ _
    simp
  | cons aid rest ih =>
    intro db0 f q hid hurl huid hpres
    set f1 : Article → Article :=
      fun x => if x.id = aid then timeoutPatch now (f x) else f x with hf1
    have hf1id : ∀ x, (f1 x).id = x.id := by
      intro x
      by_cases h : x.id = aid <;> simp [hf1, h, timeoutPatch, hid]
    have hf1url : ∀ x, (f1 x).url = x.url := by
      intro x
      by_cases h : x.id = aid <;> simp [hf1, h, timeoutPatch, hurl]
    have hf1uid : ∀ x, (f1 x).userId = x.userId := by
      intro x
      by_cases h : x.id = aid <;> simp [hf1, h, timeoutPatch, huid]
    have hdb1 : updateWhere aid (timeoutPatch now) (db0.map f) = db0.map f1 := by
      unfold updateWhere
      rw [List.map_map]
      exact List.map_congr_left (fun a _ => by simp only [Function.comp_apply, hid])
    obtain ⟨a1, hfind⟩ : ∃ a1, db0.find? (fun b => b.id == aid) = some a1 := by
      rw [← Option.isSome_iff_exists, List.find?_isSome]
      obtain ⟨a0, ha0, ha0id⟩ := hpres aid (List.mem_cons_self aid rest)
      exact ⟨a0, ha0, by simp [ha0id]⟩
    have hfind1 : (db0.map f1).find? (fun b => b.id == aid) = some (f1 a1) := by
      rw [List.find?_map]
      have hp : ((fun b : Article => b.id == aid) ∘ f1) =
          (fun b : Article => b.id == aid) := by
        funext x
        simp [Function.comp_apply, hf1id x]
      rw [hp, hfind, Option.map_some']
    have hjob : jobFor db0 aid = ⟨a1.id, a1.url, a1.userId⟩ := by
      unfold jobFor
      rw [hfind]
    have hstep : reapOne now (db0.map f, q) aid = (db0.map f1, q ++ [jobFor db0 aid]) := by
      simp only [reapOne, retryExtractionJob, addJob, hdb1, hfind1, hjob,
        hf1id, hf1url, hf1uid]
    rw [List.foldl_cons, hstep,
      ih db0 f1 (q ++ [jobFor db0 aid]) hf1id hf1url hf1uid
        (fun x hx => hpres x (List.mem_cons_of_mem aid hx))]
    rw [Prod.mk.injEq]
    constructor
    · apply List.map_congr_left
      intro a _
      by_cases haid : a.id = aid
      · by_cases hr : a.id ∈ rest <;>
          simp [hf1, haid, hr, timeoutPatch_idem, List.mem_cons]
      · by_cases hr : a.id ∈ rest <;>
          simp [hf1, haid, hr, List.mem_cons]
    · simp

/-- Models `cleanupStuckExtractions`, characterised under unique article ids: every
stuck record is timeout-patched in place, the others are untouched, and one
job per stuck article — carrying its stored id, URL and user — is appended to
the queue in order. -/
theorem cleanup_spec (db : DB) (q : List JobData) (now : Nat)
    (hnd : (db.map (·.id)).Nodup) :
    cleanupStuckExtractions db q now =
      (db.map (fun a => if stuckCond now a = true then timeoutPatch now a else a),
       q ++ (db.filter (stuckCond now)).map
         (fun a => (⟨a.id, a.url, a.userId⟩ : JobData)),
       (db.filter (stuckCond now)).length) := by
  have hpres : ∀ aid ∈ (db.filter (stuckCond now)).map (·.id), ∃ a ∈ db, a.id = aid := by
    intro aid haid
    rcases List.mem_map.mp haid with ⟨b, hbf, rfl⟩
    exact ⟨b, List.mem_of_mem_filter hbf, rfl⟩
  have h := reapFold_spec now ((db.filter (stuckCond now)).map (·.id)) db id q
    (fun _ => rfl) (fun _ => rfl) (fun _ => rfl) hpres
  rw [List.map_id] at h
  simp only [cleanupStuckExtractions]
  rw [h]
  refine Prod.ext ?_ (Prod.ext ?_ rfl)
  · apply List.map_congr_left
    intro a ha
    have hiff : (a.id ∈ (db.filter (stuckCond now)).map (·.id)) ↔ stuckCond now a = true := by
      constructor
      · intro hmem
        rcases List.mem_map.mp hmem with ⟨b, hbf, hbid⟩
        have hb : b = a :=
          List.inj_on_of_nodup_map hnd (List.mem_of_mem_filter hbf) ha hbid
        exact hb ▸ (List.mem_filter.mp hbf).2
      · intro hstuck
        exact List.mem_map.mpr ⟨a, List.mem_filter.mpr ⟨ha, hstuck⟩, rfl⟩
    by_cases hs : stuckCond now a = true
    · simp [hiff.mpr hs, hs]
    · have : ¬ (a.id ∈ (db.filter (stuckCond now)).map (·.id)) := fun hmem => hs (hiff.mp hmem)
      simp [this, hs]
  · show q ++ ((db.filter (stuckCond now)).map (·.id)).map (jobFor db) =
        q ++ (db.filter (stuckCond now)).map
          (fun a => (⟨a.id, a.url, a.userId⟩ : JobData))
    rw [List.map_map]
    congr 1
    apply List.map_congr_left
    intro a haf
    show jobFor db a.id = (⟨a.id, a.url, a.userId⟩ : JobData)
    unfold jobFor
    rw [find?_id_of_nodup hnd (List.mem_of_mem_filter haf)]

/-- Exactly one of the jobs enqueued for a duplicate-free article list
matches a member's id, and it carries that member's URL and user. -/
theorem jobs_filter_single (s : List Article) (hnd : (s.map (·.id)).Nodup)
    (X : Article) (hX : X ∈ s) :
    (s.map (fun a => (⟨a.id, a.url, a.userId⟩ : JobData))).filter
      (fun j => j.articleId == X.id) = [⟨X.id, X.url, X.userId⟩] := by
  induction s with
  | nil => cases hX
  | cons h t ih =>
    rw [List.map_cons] at hnd
    have hnd2 := List.nodup_cons.mp hnd
    rcases List.mem_cons.mp hX with rfl | hXt
    · simp only [List.map_cons, List.filter_cons]
      rw [if_pos (by simp)]
      congr 1
      rw [List.filter_eq_nil_iff]
      intro j hj
      rcases List.mem_map.mp hj with ⟨b, hbt, rfl⟩
      have : b.id ≠ X.id := by
        intro hcontra
        exact hnd2.1 (hcontra ▸ List.mem_map.mpr ⟨b, hbt, rfl⟩)
      simpa using this
    · have hne : h.id ≠ X.id := by
        intro hcontra
        exact hnd2.1 (hcontra ▸ List.mem_map.mpr ⟨X, hXt, rfl⟩)
      simp only [List.map_cons, List.filter_cons]
      rw [if_neg (by simpa using hne)]
      exact ih hnd2.2 hXt

/-- Claim C5: running the reaper on a store containing an article `X` that
has been `extracting` for longer than the ten-minute threshold marks `X`
failed with the timeout error (its URL, title and content untouched),
appends exactly one new extraction job carrying `X`'s id and URL, and leaves
every article not matching both reaper conditions untouched. -/
theorem claim_C5 (db : DB) (q : List JobData) (now : Nat) (X : Article)
    (hnd : (db.map (·.id)).Nodup) (hX : X ∈ db)
    (hstat : X.extractionStatus = .extracting)
    (htime : X.updatedAt < now - 600000) :
    (∀ a ∈ (cleanupStuckExtractions db q now).1, a.id = X.id →
       a.extractionStatus = .failed ∧
       a.extractionError = some "Extraction timeout - job was stuck" ∧
       a.url = X.url ∧ a.title = X.title ∧ a.content = X.content) ∧
    (cleanupStuckExtractions db q now).2.1 =
      q ++ (db.filter (stuckCond now)).map
        (fun a => (⟨a.id, a.url, a.userId⟩ : JobData)) ∧
    ((db.filter (stuckCond now)).map
        (fun a => (⟨a.id, a.url, a.userId⟩ : JobData))).filter
      (fun j => j.articleId == X.id) = [⟨X.id, X.url, X.userId⟩] ∧
    (∀ a ∈ db, stuckCond now a = false → a ∈ (cleanupStuckExtractions db q now).1) := by
  have hstuckX : stuckCond now X = true := by
    simp [stuckCond, hstat, htime]
  have hsubnd : ((db.filter (stuckCond now)).map (·.id)).Nodup :=
    List.Nodup.sublist (List.Sublist.map _ (List.filter_sublist db)) hnd
  have hXf : X ∈ db.filter (stuckCond now) := List.mem_filter.mpr ⟨hX, hstuckX⟩
  rw [cleanup_spec db q now hnd]
  refine ⟨?_, rfl, jobs_filter_single _ hsubnd X hXf, ?_⟩
  · intro a ha haid
    rcases List.mem_map.mp ha with ⟨b, hb, hba⟩
    have hbid : b.id = X.id := by
      rw [← haid, ← hba]
      by_cases hs : stuckCond now b = true <;> simp [hs, timeoutPatch]
    have hbX : b = X := List.inj_on_of_nodup_map hnd hb hX hbid
    subst hbX
    rw [← hba, if_pos hstuckX]
    exact ⟨rfl, rfl, rfl, rfl, rfl⟩
  · intro a ha hnot
    exact List.mem_map.mpr ⟨a, ha, by simp [hnot]⟩

/-- Witness for C5: a two-article store in which only `stuckArticle` is past
the threshold; the fresh article is untouched and exactly one job is
enqueued. -/
theorem claim_C5_witness :
    (([stuckArticle, freshArticle] : DB).map (·.id)).Nodup ∧
    stuckArticle ∈ ([stuckArticle, freshArticle] : DB) ∧
    stuckArticle.extractionStatus = .extracting ∧
    stuckArticle.updatedAt < 700000 - 600000 ∧
    ((∀ a ∈ (cleanupStuckExtractions [stuckArticle, freshArticle] [] 700000).1,
        a.id = stuckArticle.id →
        a.extractionStatus = .failed ∧
        a.extractionError = some "Extraction timeout - job was stuck" ∧
        a.url = stuckArticle.url ∧ a.title = stuckArticle.title ∧
        a.content = stuckArticle.content) ∧
      (cleanupStuckExtractions [stuckArticle, freshArticle] [] 700000).2.1 =
        [] ++ (([stuckArticle, freshArticle] : DB).filter (stuckCond 700000)).map
          (fun a => (⟨a.id, a.url, a.userId⟩ : JobData)) ∧
      ((([stuckArticle, freshArticle] : DB).filter (stuckCond 700000)).map
          (fun a => (⟨a.id, a.url, a.userId⟩ : JobData))).filter
        (fun j => j.articleId == stuckArticle.id) =
          [⟨stuckArticle.id, stuckArticle.url, stuckArticle.userId⟩] ∧
      (∀ a ∈ ([stuckArticle, freshArticle] : DB), stuckCond 700000 a = false →
        a ∈ (cleanupStuckExtractions [stuckArticle, freshArticle] [] 700000).1)) :=
  ⟨by decide, by decide, by decide, by decide,
   claim_C5 [stuckArticle, freshArticle] [] 700000 stuckArticle
     (by decide) (by decide) (by decide) (by decide)⟩
